import Mathlib

/-!
Verification of the privatehomebox core against its specification.

The development shallowly embeds the Python sources of the repository
(hub `phbcli`, gateway `phbgateway`, the devices channel plugin and the
shared channel SDK) into Lean:

* machine-level collaborator libraries (Ed25519 from `cryptography`,
  `json`, `datetime`, `base64`/hex codecs) are modelled algebraically:
  signatures are symbolic (a signature verifies exactly for the matching
  public key and the exact signed bytes), JSON serialisation of the flat
  string-valued objects the code exchanges is implemented concretely
  together with a concrete parser, and UTC instants are natural numbers
  rendered injectively with a partial-inverse parser;
* the repository functions themselves (`create_device_attestation`,
  `GatewayAuthManager.verify_desktop_claim`, `verify_device_auth`,
  `relay_message`, the `pairing_request` handler of `_server_process`,
  `upsert_approved_device`, `_make_reply`, the `PluginManager` dispatch
  and the devices-plugin gateway reconnect loop) are translated
  definition by definition, with clock readings, generated uuids and
  nonces passed explicitly as inputs.
-/

namespace PHBSpec


/-! ### Characters, decimal digits and hex decoding -/

/-- Decimal digit character, `chr(48 + d)` for `d < 10`. -/
def digitChar (d : Nat) : Char := Char.ofNat (48 + d)

/-- Test for an ASCII decimal digit. -/
def isDigitChar (c : Char) : Bool := 48 ≤ c.toNat && c.toNat ≤ 57

/-- Test for a lowercase hex digit as produced by `uuid4().hex`. -/
def isLowerHexChar (c : Char) : Bool :=
  (48 ≤ c.toNat && c.toNat ≤ 57) || (97 ≤ c.toNat && c.toNat ≤ 102)

/-- A character that `json.dumps` emits literally inside a string:
printable ASCII that is neither the quote (34) nor the backslash (92).
The flat JSON model below is faithful to the Python `json` module
exactly on strings of such characters. -/
def jsonPlainChar (c : Char) : Bool :=
  32 ≤ c.toNat && c.toNat ≤ 126 && c.toNat ≠ 34 && c.toNat ≠ 92

/-- All characters of a string are plain (unescaped by `json.dumps`). -/
def jsonPlain (s : String) : Prop := ∀ c ∈ s.data, jsonPlainChar c = true

instance (s : String) : Decidable (jsonPlain s) := by
  unfold jsonPlain; infer_instance

/-- Fuel-driven decimal rendering of a natural number, most significant
digit first; with fuel at least the number itself this is ordinary
decimal notation (the fuel-zero fallback is never reached then). -/
def natToDecAux : Nat → Nat → List Char
  | 0, n => [digitChar (n % 10)]
  | fuel + 1, n =>
    if n < 10 then [digitChar n]
    else natToDecAux fuel (n / 10) ++ [digitChar (n % 10)]

/-- Decimal rendering of a natural number. -/
def natToDec (n : Nat) : List Char := natToDecAux n n

/-- Numeric value of a list of decimal digit characters. -/
def decNum (cs : List Char) : Nat :=
  cs.foldl (fun a c => a * 10 + (c.toNat - 48)) 0

/-- Hex decoding of pairs of hex digits, `bytes.fromhex`. -/
def hexVal (c : Char) : Option Nat :=
  if 48 ≤ c.toNat ∧ c.toNat ≤ 57 then some (c.toNat - 48)
  else if 97 ≤ c.toNat ∧ c.toNat ≤ 102 then some (c.toNat - 87)
  else if 65 ≤ c.toNat ∧ c.toNat ≤ 70 then some (c.toNat - 55)
  else none

def hexDecodeAux : List Char → Option (List Nat)
  | [] => some []
  | [_] => none
  | c1 :: c2 :: rest =>
    match hexVal c1, hexVal c2, hexDecodeAux rest with
    | some a, some b, some l => some ((a * 16 + b) :: l)
    | _, _, _ => none

/-- `bytes.fromhex` on a hex string (even length, hex digits). -/
def hexDecode (s : String) : Option (List Nat) := hexDecodeAux s.data

/-! ### UTC instants

Modelled from the spec: timestamps are RFC-3339 UTC instants with a `Z`
suffix (`datetime.isoformat` / `datetime.fromisoformat` of the external
`datetime` library).  The code relies only on the rendering being an
injective function of the instant, on parsing being its partial inverse
(rejecting strings without the timezone marker), and on the order of
instants; the calendar formatting itself is abstracted to decimal
notation of the epoch second count. -/

/-- Render an instant, `isoformat().replace("+00:00", "Z")`. -/
def renderTs (t : Nat) : String := ⟨natToDec t ++ ['Z']⟩

/-- Parse an instant, `_parse_iso8601_utc`: requires the timezone
marker and a well-formed instant, otherwise fails. -/
def parseTs (s : String) : Option Nat :=
  match s.data.getLast? with
  | some 'Z' =>
    let ds := s.data.dropLast
    if !ds.isEmpty && ds.all isDigitChar then some (decNum ds) else none
  | _ => none

/-! ### Flat JSON objects

Model of the Python `json` module restricted to the shapes the code
serialises and parses here: objects whose values are strings, with no
whitespace (`separators=(",", ":")`) and no escape sequences.  It is
faithful to `json.dumps`/`json.loads` exactly on keys and values made of
`jsonPlainChar` characters, which covers every string the program puts
into such objects (hex device ids, base64 key material, timestamps). -/

/-- Serialisation of one `"key":"value"` field. -/
def fieldChars (p : String × String) : List Char :=
  '"' :: p.1.data ++ '"' :: ':' :: '"' :: p.2.data ++ ['"']

/-- Comma-separated serialisation of the fields. -/
def fieldsChars : List (String × String) → List Char
  | [] => []
  | p :: ps =>
    fieldChars p ++ (match ps with | [] => [] | _ :: _ => ',' :: fieldsChars ps)

/-- `json.dumps(obj, separators=(",", ":"))` on a flat string-valued
object whose fields are already in the serialised key order. -/
def dumpsFlat (ps : List (String × String)) : String := ⟨'{' :: fieldsChars ps ++ ['}']⟩

/-- Read string characters up to the closing quote. -/
def readJString : List Char → Option (List Char × List Char)
  | [] => none
  | c :: cs =>
    if c = '"' then some ([], cs)
    else
      match readJString cs with
      | some (s, r) => some (c :: s, r)
      | none => none

/-- Fuel-driven field list parser; the fuel only bounds the number of
fields, so any fuel of at least the number of fields is adequate. -/
def readFieldsAux : Nat → List Char → Option (List (String × String))
  | 0, _ => none
  | fuel + 1, cs =>
    match cs with
    | '"' :: cs1 =>
      match readJString cs1 with
      | some (k, ':' :: '"' :: cs3) =>
        match readJString cs3 with
        | some (v, ',' :: cs5) =>
          (readFieldsAux fuel cs5).map (fun ps => (⟨k⟩, ⟨v⟩) :: ps)
        | some (v, ['}']) => some [(⟨k⟩, ⟨v⟩)]
        | _ => none
      | _ => none
    | _ => none

/-- `json.loads` on a flat string-valued object. -/
def loadsFlat (s : String) : Option (List (String × String)) :=
  match s.data with
  | '{' :: cs => if cs = ['}'] then some [] else readFieldsAux cs.length cs
  | _ => none

/-- `dict.get` on the parsed object. -/
def jlookup (ps : List (String × String)) (k : String) : Option String :=
  (ps.find? (fun p => p.1 == k)).map (fun p => p.2)

/-! ### Symbolic Ed25519

Model of the external `cryptography` Ed25519 primitives: keys are
symbolic, signing is deterministic, and a signature verifies exactly
when it was produced by the private key matching the verifying public
key over exactly the signed bytes.  Signed payloads are either the
UTF-8 bytes of a string (`.encode("utf-8")`) or raw bytes such as a
decoded nonce.  Base64 wire encodings of signatures are elided: a
signature that fails to decode behaves like any non-verifying value. -/

inductive SigData where
  | utf8 (s : String)
  | raw (bytes : List Nat)
deriving DecidableEq

structure Ed25519Priv where
  seed : Nat
deriving DecidableEq

structure Ed25519Pub where
  raw : Nat
deriving DecidableEq

/-- `private_key.public_key()`. -/
def Ed25519Priv.publicKey (k : Ed25519Priv) : Ed25519Pub := ⟨k.seed⟩

structure Sig where
  signer : Nat
  data : SigData
deriving DecidableEq

/-- `private_key.sign(data)`. -/
def edSign (k : Ed25519Priv) (d : SigData) : Sig := ⟨k.seed, d⟩

/-- `public_key.verify(signature, data)`, returned as a boolean rather
than raising `InvalidSignature`. -/
def edVerify (pk : Ed25519Pub) (sig : Sig) (d : SigData) : Bool :=
  sig.signer == pk.raw && sig.data == d

/-- Modelled base64 of the raw 32-byte public key
(`public_key_to_b64`): an injective rendering into plain characters
with `decodePubB64` as partial inverse. -/
def pubKeyB64 (k : Ed25519Pub) : String := ⟨'K' :: natToDec k.raw⟩

/-- Modelled `_load_public_key_b64`: decode a public key from its wire
string, failing on anything that is not a valid encoding. -/
def decodePubB64 (s : String) : Option Ed25519Pub :=
  match s.data with
  | 'K' :: ds => if !ds.isEmpty && ds.all isDigitChar then some ⟨decNum ds⟩ else none
  | _ => none

/-! ### Device attestations, `phbcli/crypto.py` -/

structure Attestation where
  blob : String
  desktop_signature : Sig
deriving DecidableEq

/-- Seconds per day, for `timedelta(days=expires_days)`. -/
def SECONDS_PER_DAY : Nat := 86400

/-- `create_device_attestation`: canonical JSON blob (compact
separators; `sort_keys=True` orders the four keys as `device_id`,
`device_public_key`, `expires_at`, `issued_at`) signed with the desktop
master key over the UTF-8 blob bytes.  `issued_at` is the
`datetime.now(UTC)` reading, passed explicitly. -/
def create_device_attestation (private_key : Ed25519Priv)
    (device_id device_public_key_b64 : String)
    (expires_days issued_at : Nat) : Attestation :=
  let expires_at := issued_at + expires_days * SECONDS_PER_DAY
  let blob := dumpsFlat
    [("device_id", device_id),
     ("device_public_key", device_public_key_b64),
     ("expires_at", renderTs expires_at),
     ("issued_at", renderTs issued_at)]
  ⟨blob, edSign private_key (SigData.utf8 blob)⟩

/-! ### Gateway auth manager, `phbgateway/auth.py` -/

structure AuthResult where
  ok : Bool
  device_id : Option String := none
  reason : Option String := none
deriving DecidableEq

/-- State of `GatewayAuthManager`: the in-memory desktop trust root and
the `desktop_public_key` recorded in the state file. -/
structure GatewayAuthState where
  desktopKey : Option Ed25519Pub
  fileKey : Option Ed25519Pub
deriving DecidableEq

/-- `_save_state`: write the current trust root to the state file. -/
def saveState (st : GatewayAuthState) : GatewayAuthState := ⟨st.desktopKey, st.desktopKey⟩

/-- `verify_desktop_claim`.  The caller-supplied `public_key_b64`,
`nonce_signature_b64` and `nonce_hex` arrive here already decoded; a
payload whose key, signature or nonce fails to decode raises inside the
`try` block of the source and is covered by the non-verifying case. -/
def verify_desktop_claim (st : GatewayAuthState) (key : Ed25519Pub) (sig : Sig)
    (nonceBytes : List Nat) : GatewayAuthState × AuthResult :=
  if edVerify key sig (SigData.raw nonceBytes) = false then
    (st, ⟨false, none, some "desktop claim signature invalid"⟩)
  else
    match st.desktopKey with
    | some current =>
      if current ≠ key then
        (st, ⟨false, none, some "gateway already claimed by another desktop"⟩)
      else (st, ⟨true, none, none⟩)
    | none => (saveState ⟨some key, st.fileKey⟩, ⟨true, none, none⟩)

/-- Require a present, nonempty string field of the parsed blob
(`isinstance(x, str) and x` in the source). -/
def strField (o : Option String) : Option String :=
  match o with
  | some s => if s = "" then none else some s
  | none => none

/-- `verify_device_auth`: verify the desktop signature over the literal
blob bytes, parse the blob, require its three fields, check expiry
against `now`, then verify the device's nonce signature. -/
def verify_device_auth (st : GatewayAuthState) (now : Nat) (nonce_hex : String)
    (attestation_blob : String) (desktop_signature nonce_signature : Sig) : AuthResult :=
  match st.desktopKey with
  | none => ⟨false, none, some "gateway not claimed by desktop yet"⟩
  | some root_key =>
    if edVerify root_key desktop_signature (SigData.utf8 attestation_blob) = false then
      ⟨false, none, some "attestation signature invalid"⟩
    else
      match loadsFlat attestation_blob with
      | none => ⟨false, none, some "attestation blob is not valid JSON"⟩
      | some blob =>
        match strField (jlookup blob "device_id") with
        | none => ⟨false, none, some "attestation missing device_id"⟩
        | some device_id =>
          match strField (jlookup blob "device_public_key") with
          | none => ⟨false, none, some "attestation missing device_public_key"⟩
          | some device_public_key_b64 =>
            match strField (jlookup blob "expires_at") with
            | none => ⟨false, none, some "attestation missing expires_at"⟩
            | some expires_at =>
              match parseTs expires_at with
              | none => ⟨false, none, some "attestation expires_at invalid"⟩
              | some expiry =>
                if expiry ≤ now then ⟨false, none, some "attestation expired"⟩
                else
                  match decodePubB64 device_public_key_b64, hexDecode nonce_hex with
                  | some device_key, some nonce_bytes =>
                    if edVerify device_key nonce_signature (SigData.raw nonce_bytes) then
                      ⟨true, some device_id, none⟩
                    else ⟨false, none, some "device nonce signature invalid"⟩
                  | _, _ => ⟨false, none, some "device nonce signature invalid"⟩

/-- String containment, for reasons such as `already claimed`. -/
def strContains (needle hay : String) : Prop :=
  ∃ pre post : List Char, hay.data = pre ++ needle.data ++ post

/-! ### Gateway relay, `phbgateway/relay.py` -/

/-- JSON values carried inside relay frames. -/
inductive JVal where
  | str (s : String)
  | num (n : Int)
  | boolean (b : Bool)
  | null
  | arr (elems : List JVal)
  | obj (fields : List (String × JVal))

/-- A parsed JSON object frame. -/
abbrev JObj := List (String × JVal)

/-- `msg.get(k)` on a parsed object. -/
def jGet (m : JObj) (k : String) : Option JVal :=
  (m.find? (fun p => p.1 == k)).map (fun p => p.2)

/-- `msg[k] = v` on a Python dict: replace in place when the key is
present, append otherwise. -/
def jSet (m : JObj) (k : String) (v : JVal) : JObj :=
  if m.any (fun p => p.1 == k) then m.map (fun p => if p.1 == k then (p.1, v) else p)
  else m ++ [(k, v)]

/-- Python truthiness of an optional JSON value (`if target_id:`). -/
def truthy : Option JVal → Bool
  | none => false
  | some (.str s) => !(s == "")
  | some (.num n) => !(n == 0)
  | some (.boolean b) => b
  | some .null => false
  | some (.arr l) => !l.isEmpty
  | some (.obj l) => !l.isEmpty

/-- `_registry.get(device_id)`: the registry maps device ids to
connections, modelled as connection numbers. -/
def regFind (reg : List (String × Nat)) (id : String) : Option Nat :=
  (reg.find? (fun p => p.1 == id)).map (fun p => p.2)

/-- `_registry.get(target_id)` for an arbitrary JSON value: only string
keys can match (an unhashable value raises in the source, delivering to
nobody, which coincides with the `none` result here). -/
def regGet (reg : List (String × Nat)) (v : JVal) : Option Nat :=
  match v with
  | .str s => regFind reg s
  | _ => none

/-- `relay_message`: stamp `sender_device_id`, then unicast to a truthy
known target, drop on a truthy unknown target, and broadcast to every
other registered connection otherwise.  Returns the list of
(connection, delivered frame) pairs. -/
def relay_message (reg : List (String × Nat)) (sender_id : String) (msg : JObj) :
    List (Nat × JObj) :=
  let stamped := jSet msg "sender_device_id" (JVal.str sender_id)
  match jGet stamped "target_device_id" with
  | some target =>
    if truthy (some target) then
      match regGet reg target with
      | some ws => [(ws, stamped)]
      | none => []
    else reg.filterMap (fun p => if p.1 == sender_id then none else some (p.2, stamped))
  | none => reg.filterMap (fun p => if p.1 == sender_id then none else some (p.2, stamped))

/-! ### Pairing persistence, `phbcli/pairing.py` -/

structure PairingSession where
  code : String
  created_at : Nat
  ttl_seconds : Nat
deriving DecidableEq

/-- `PairingSession.expires_at`. -/
def PairingSession.expires_at (s : PairingSession) : Nat := s.created_at + s.ttl_seconds

/-- `PairingSession.is_valid(now)`: strictly before expiry. -/
def PairingSession.is_valid (s : PairingSession) (now : Nat) : Bool := now < s.expires_at

structure ApprovedDevice where
  device_id : String
  device_public_key : String
  paired_at : Nat
  expires_at : Option Nat
  metadata : List (String × String)
deriving DecidableEq

/-- Hub-side persisted pairing state: the contents of
`pairing_session.json` and `devices.json`. -/
structure HubState where
  session : Option PairingSession
  devices : List ApprovedDevice
deriving DecidableEq

/-- `load_pairing_session`: return the stored session when still valid;
an invalid stored session is cleared (`clear_pairing_session`) and
reported absent.  `now` is the `datetime.now(UTC)` reading inside
`is_valid`. -/
def load_pairing_session (st : HubState) (now : Nat) :
    Option PairingSession × HubState :=
  match st.session with
  | none => (none, st)
  | some s => if s.is_valid now then (some s, st) else (none, ⟨none, st.devices⟩)

/-- Lexicographic code-point comparison of strings, Python `str` order
used by `sorted(..., key=lambda d: d.device_id)`. -/
def charListLe : List Char → List Char → Bool
  | [], _ => true
  | _ :: _, [] => false
  | a :: as, b :: bs =>
    if a.toNat < b.toNat then true
    else if b.toNat < a.toNat then false
    else charListLe as bs

def strLe (a b : String) : Bool := charListLe a.data b.data

/-- Order on approved devices by `device_id`. -/
def devLe (a b : ApprovedDevice) : Prop := strLe a.device_id b.device_id = true

instance : DecidableRel devLe := fun a b =>
  inferInstanceAs (Decidable (strLe a.device_id b.device_id = true))

/-- One Python dict assignment `by_id[k] = d`: replace the value at an
existing key in place, append a new key at the end. -/
def byIdInsert (m : List (String × ApprovedDevice)) (d : ApprovedDevice) :
    List (String × ApprovedDevice) :=
  if m.any (fun p => p.1 == d.device_id) then
    m.map (fun p => if p.1 == d.device_id then (p.1, d) else p)
  else m ++ [(d.device_id, d)]

/-- `{d.device_id: d for d in devices}` in iteration order. -/
def buildById (ds : List ApprovedDevice) : List (String × ApprovedDevice) :=
  ds.foldl byIdInsert []

/-- `upsert_approved_device` on the persisted list: insert into the
id-keyed dict and save the values sorted ascending by `device_id`
(`sorted` is modelled by insertion sort; the dict's ids are distinct,
so the sorted permutation is unique). -/
def upsert_approved_device (ds : List ApprovedDevice) (d : ApprovedDevice) :
    List ApprovedDevice :=
  List.insertionSort devLe ((byIdInsert (buildById ds) d).map (fun p => p.2))

/-! ### Hub pairing-request handler, `phbcli/_server_process.py` -/

/-- Modelled from the spec: `send_event_to_channel(name, event, data)`
sends a `channel.event` notification carrying the event name and data
to the named channel's socket.  The operation is missing from
`PluginManager` in the source tree (only its callers in
`_server_process.py` and the spec define it), so the handler below
returns the list of events it hands to it; the `data` payload of a
`pairing_response` is flattened into the record fields. -/
structure SentEvent where
  channel : String
  event : String
  request_id : String
  status : String
  reason : Option String
  device_id : Option String
  attestation : Option Attestation
deriving DecidableEq

/-- A rejected `pairing_response` event payload. -/
def mkRejected (request_id reason : String) : SentEvent :=
  ⟨"devices", "pairing_response", request_id, "rejected", some reason, none, none⟩

/-- An approved `pairing_response` event payload. -/
def mkApproved (request_id device_id : String) (att : Attestation) : SentEvent :=
  ⟨"devices", "pairing_response", request_id, "approved", none, some device_id, some att⟩

/-- The `pairing_request` branch of `_on_channel_event`.  The event
payload fields arrive as validated strings (the devices plugin only
forwards nonempty strings; a missing or non-string field behaves like
the empty string here).  `tLoad` and `tCheck` are the
`datetime.now(UTC)` readings inside `load_pairing_session` and the
handler's own `session.is_valid()` re-check, `tIssue` the attestation
issue instant, `tPair` the `paired_at` instant, and `uuidHex` the
`uuid4().hex` characters used for the device id. -/
def on_pairing_request (st : HubState) (key : Ed25519Priv) (expires_days : Nat)
    (request_id pairing_code device_public_key : String)
    (tLoad tCheck tIssue tPair : Nat) (uuidHex : List Char) :
    HubState × List SentEvent :=
  if request_id = "" then (st, [])
  else if pairing_code = "" then (st, [mkRejected request_id "invalid_pairing_code"])
  else if device_public_key = "" then
    (st, [mkRejected request_id "invalid_device_public_key"])
  else
    match load_pairing_session st tLoad with
    | (none, st1) => (st1, [mkRejected request_id "no_active_pairing_session"])
    | (some session, st1) =>
      if ¬ (session.is_valid tCheck = true) ∨ session.code ≠ pairing_code then
        (st1, [mkRejected request_id "pairing_code_invalid_or_expired"])
      else
        let device_id := String.mk ("mobile-".data ++ uuidHex.take 12)
        let attestation := create_device_attestation key device_id device_public_key
          expires_days tIssue
        let expires_at :=
          match loadsFlat attestation.blob with
          | some blob =>
            match jlookup blob "expires_at" with
            | some s => parseTs s
            | none => none
          | none => none
        let devices := upsert_approved_device st1.devices
          ⟨device_id, device_public_key, tPair, expires_at, [("source", "gateway_pairing")]⟩
        (⟨none, devices⟩, [mkApproved request_id device_id attestation])

instance : IsTotal ApprovedDevice devLe :=
  ⟨fun u v => by
    show charListLe u.device_id.data v.device_id.data = true ∨
      charListLe v.device_id.data u.device_id.data = true
    generalize u.device_id.data = xs
    generalize v.device_id.data = ys
    induction xs generalizing ys with
    | nil => left; rfl
    | cons a as ih =>
      cases ys with
      | nil => right; rfl
      | cons b bs =>
        by_cases hab : a.toNat < b.toNat
        · left
          rw [charListLe, if_pos hab]
        · by_cases hba : b.toNat < a.toNat
          · right
            rw [charListLe, if_pos hba]
          · rcases ih bs with h | h
            · left
              rw [charListLe, if_neg hab, if_neg hba]
              exact h
            · right
              rw [charListLe, if_neg hba, if_neg hab]
              exact h⟩

instance : IsTrans ApprovedDevice devLe :=
  ⟨fun u v w h1 h2 => by
    revert h1 h2
    show charListLe u.device_id.data v.device_id.data = true →
      charListLe v.device_id.data w.device_id.data = true →
      charListLe u.device_id.data w.device_id.data = true
    generalize u.device_id.data = xs
    generalize v.device_id.data = ys
    generalize w.device_id.data = zs
    induction xs generalizing ys zs with
    | nil => intro _ _; rfl
    | cons a as ih =>
      intro h1 h2
      cases ys with
      | nil => simp [charListLe] at h1
      | cons b bs =>
        cases zs with
        | nil => simp [charListLe] at h2
        | cons c cs =>
          rw [charListLe] at h1 h2 ⊢
          by_cases hab : a.toNat < b.toNat
          · by_cases hbc : b.toNat < c.toNat
            · rw [if_pos (show a.toNat < c.toNat by omega)]
            · by_cases hcb : c.toNat < b.toNat
              · rw [if_neg hbc, if_pos hcb] at h2
                simp at h2
              · rw [if_pos (show a.toNat < c.toNat by omega)]
          · by_cases hba : b.toNat < a.toNat
            · rw [if_neg hab, if_pos hba] at h1
              simp at h1
            · rw [if_neg hab, if_neg hba] at h1
              by_cases hbc : b.toNat < c.toNat
              · rw [if_pos (show a.toNat < c.toNat by omega)]
              · by_cases hcb : c.toNat < b.toNat
                · rw [if_neg hbc, if_pos hcb] at h2
                  simp at h2
                · rw [if_neg hbc, if_neg hcb] at h2
                  rw [if_neg (show ¬ a.toNat < c.toNat by omega),
                    if_neg (show ¬ c.toNat < a.toNat by omega)]
                  exact ih bs cs h1 h2⟩

/-! ### Unified messages and the agent worker, `phb_channel_sdk/models.py`
and `phbcli/agent_manager.py` -/

/-- `UnifiedMessage`: `sender_id` is a required `str` field of the
pydantic model (`recipient_id` is `str | None`). -/
structure UnifiedMessage where
  id : String
  channel : String
  direction : String
  sender_id : String
  recipient_id : Option String
  content_type : String
  body : String
  metadata : List (String × String)
  timestamp : Nat
deriving DecidableEq

/-- Pydantic construction of a `UnifiedMessage`: validation fails —
`none`, for the raised `ValidationError` — when the required `str`
field `sender_id` is passed `None`. -/
def mkUnifiedMessage (id channel direction : String) (sender_id : Option String)
    (recipient_id : Option String) (content_type body : String)
    (metadata : List (String × String)) (timestamp : Nat) : Option UnifiedMessage :=
  match sender_id with
  | some s =>
    some ⟨id, channel, direction, s, recipient_id, content_type, body, metadata, timestamp⟩
  | none => none

/-- `_make_reply`: build the outbound reply with `sender_id=None`,
`recipient_id=inbound.sender_id`, `content_type="text"`, the reply
body, empty metadata, a fresh id and the current timestamp. -/
def make_reply (inbound : UnifiedMessage) (body : String) (freshId : String)
    (now : Nat) : Option UnifiedMessage :=
  mkUnifiedMessage freshId inbound.channel "outbound" none (some inbound.sender_id)
    "text" body [] now

/-- The constant fallback body used on driver errors. -/
def FALLBACK_ERROR_BODY : String :=
  "Sorry, I encountered an error processing your message. Please try again."

/-- `AgentManager._process`: take the driver reply (or the fallback on
driver error), construct the reply with `_make_reply` and enqueue it;
the result is the message that reaches the outbound queue, `none` when
construction raises before `enqueue_outbound`. -/
def agent_process (inbound : UnifiedMessage) (driverReply : Option String)
    (freshId : String) (now : Nat) : Option UnifiedMessage :=
  let reply_body :=
    match driverReply with
    | some r => r
    | none => FALLBACK_ERROR_BODY
  make_reply inbound reply_body freshId now

/-! ### Hub-side plugin supervisor dispatch, `phbcli/plugin_manager.py` -/

/-- Observable effects of `PluginManager._handle_connection` handling
one RPC frame. -/
inductive PMEffect where
  | registered (name : String)
  | pushConfig (name : String)
  | calledOnMessage (params : JObj)
  | logged
  | sentMethodNotFound (method : String)

/-- The `match method` statement of `_handle_connection`:
`channel.register` records the channel and pushes stored config,
`channel.receive` calls the `on_message` hook when one was given,
`channel.event` is only logged — `PluginManager.__init__` accepts no
`on_event` callback and the class has no `send_event_to_channel`
method, although `_server_process.py` passes `on_event=` to the
constructor and calls `send_event_to_channel` — and any other method is
logged and answered `-32601` when it carries an id. -/
def pm_dispatch (hasOnMessage : Bool) (registerName : String) (method : String)
    (params : JObj) (reqId : Option JVal) : List PMEffect :=
  if method = "channel.register" then
    [PMEffect.registered registerName, PMEffect.pushConfig registerName]
  else if method = "channel.receive" then
    if hasOnMessage then [PMEffect.calledOnMessage params] else []
  else if method = "channel.event" then [PMEffect.logged]
  else
    PMEffect.logged ::
      (match reqId with
       | some _ => [PMEffect.sentMethodNotFound method]
       | none => [])

/-! ### Devices plugin gateway reconnect loop,
`phb_channel_devices/plugin.py` -/

/-- Outcome of one `_run_gateway_connection` call inside
`_run_gateway_loop`: either the connect or handshake raised, or the
connection authenticated (`gateway_connected` emitted) and later
dropped.  Both paths fall through to the same
`await asyncio.sleep(backoff)`. -/
inductive GatewayAttempt where
  | connectFailed
  | connectedThenDropped
deriving DecidableEq

def BACKOFF_BASE : Nat := 1

def BACKOFF_MAX : Nat := 60

/-- The sleeps performed by `_run_gateway_loop` over a finite run of
iteration outcomes: one sleep after every iteration; the backoff
doubles (capped at 60) after every sleep and no code path resets it. -/
def gateway_loop_sleeps : List GatewayAttempt → Nat → List Nat
  | [], _ => []
  | _ :: rest, backoff => backoff :: gateway_loop_sleeps rest (min (backoff * 2) BACKOFF_MAX)

/-- The loop starts from the base backoff of 1 second. -/
def run_gateway_loop_sleeps (attempts : List GatewayAttempt) : List Nat :=
  gateway_loop_sleeps attempts BACKOFF_BASE

/-! ### Theorems -/

theorem digitChar_toNat {d : Nat} (h : d < 10) : (digitChar d).toNat = 48 + d := by
  interval_cases d <;> decide

theorem isDigitChar_digitChar {d : Nat} (h : d < 10) : isDigitChar (digitChar d) = true := by
  interval_cases d <;> decide

theorem natToDecAux_digits {fuel n : Nat} :
    ∀ c ∈ natToDecAux fuel n, isDigitChar c = true := by
  induction fuel generalizing n with
  | zero =>
    intro c hc
    simp only [natToDecAux, List.mem_singleton] at hc
    subst hc
    exact isDigitChar_digitChar (Nat.mod_lt _ (by omega))
  | succ fuel ih =>
    intro c hc
    simp only [natToDecAux] at hc
    by_cases h : n < 10
    · simp [h] at hc
      subst hc
      exact isDigitChar_digitChar h
    · simp [h, List.mem_append] at hc
      rcases hc with hc | hc
      · exact ih c hc
      · subst hc
        exact isDigitChar_digitChar (Nat.mod_lt _ (by omega))

theorem natToDec_digits {n : Nat} : ∀ c ∈ natToDec n, isDigitChar c = true :=
  natToDecAux_digits

theorem natToDecAux_ne_nil {fuel n : Nat} : natToDecAux fuel n ≠ [] := by
  cases fuel with
  | zero => simp [natToDecAux]
  | succ fuel =>
    simp only [natToDecAux]
    by_cases h : n < 10 <;> simp [h]

theorem natToDec_ne_nil {n : Nat} : natToDec n ≠ [] := natToDecAux_ne_nil

theorem decNum_append_digit (cs : List Char) (c : Char) :
    decNum (cs ++ [c]) = decNum cs * 10 + (c.toNat - 48) := by
  simp [decNum, List.foldl_append]

theorem decNum_natToDecAux {fuel n : Nat} (h : n ≤ fuel) :
    decNum (natToDecAux fuel n) = n := by
  induction fuel generalizing n with
  | zero =>
    have hn : n = 0 := Nat.le_zero.mp h
    subst hn
    decide
  | succ fuel ih =>
    simp only [natToDecAux]
    by_cases hlt : n < 10
    · simp only [hlt, if_true, decNum, List.foldl_cons, List.foldl_nil]
      rw [digitChar_toNat hlt]
      omega
    · simp only [hlt, if_false]
      rw [decNum_append_digit, ih (by omega : n / 10 ≤ fuel)]
      rw [digitChar_toNat (Nat.mod_lt _ (by omega))]
      omega

theorem decNum_natToDec (n : Nat) : decNum (natToDec n) = n :=
  decNum_natToDecAux (Nat.le_refl n)

theorem parseTs_renderTs (t : Nat) : parseTs (renderTs t) = some t := by
  have hdata : (renderTs t).data = natToDec t ++ ['Z'] := rfl
  rw [parseTs, hdata, List.getLast?_concat, List.dropLast_concat]
  have hne : (natToDec t).isEmpty = false := by
    cases h : natToDec t with
    | nil => exact absurd h natToDec_ne_nil
    | cons c cs => simp [List.isEmpty]
  have hall : (natToDec t).all isDigitChar = true :=
    List.all_eq_true.mpr natToDec_digits
  simp [hne, hall, decNum_natToDec]

theorem jsonPlainChar_of_digit {c : Char} (h : isDigitChar c = true) :
    jsonPlainChar c = true := by
  simp only [isDigitChar, Bool.and_eq_true, decide_eq_true_eq] at h
  simp only [jsonPlainChar, Bool.and_eq_true, decide_eq_true_eq]
  omega

theorem jsonPlainChar_of_lower_hex {c : Char} (h : isLowerHexChar c = true) :
    jsonPlainChar c = true := by
  simp only [isLowerHexChar, Bool.or_eq_true, Bool.and_eq_true, decide_eq_true_eq] at h
  simp only [jsonPlainChar, Bool.and_eq_true, decide_eq_true_eq]
  omega

theorem renderTs_plain (t : Nat) : jsonPlain (renderTs t) := by
  intro c hc
  have hdata : (renderTs t).data = natToDec t ++ ['Z'] := rfl
  rw [hdata, List.mem_append] at hc
  rcases hc with hc | hc
  · exact jsonPlainChar_of_digit (natToDec_digits c hc)
  · simp only [List.mem_singleton] at hc
    subst hc
    decide

theorem no_quote_of_plain {s : String} (h : jsonPlain s) : ∀ c ∈ s.data, c ≠ '"' := by
  intro c hc heq
  have := h c hc
  subst heq
  simp [jsonPlainChar] at this

theorem readJString_append {s r : List Char} (h : ∀ c ∈ s, c ≠ '"') :
    readJString (s ++ '"' :: r) = some (s, r) := by
  induction s with
  | nil => simp [readJString]
  | cons c cs ih =>
    have hc : c ≠ '"' := h c (List.mem_cons_self _ _)
    have ih' := ih (fun x hx => h x (List.mem_cons_of_mem _ hx))
    show readJString (c :: (cs ++ '"' :: r)) = _
    rw [readJString, if_neg hc, ih']

theorem fieldChars_append (p : String × String) (X : List Char) :
    fieldChars p ++ X =
      '"' :: (p.1.data ++ '"' :: ':' :: '"' :: (p.2.data ++ '"' :: X)) := by
  simp [fieldChars, List.cons_append, List.append_assoc]

theorem fieldsChars_cons_eq (p : String × String) (ps : List (String × String)) :
    fieldsChars (p :: ps) =
      fieldChars p ++ (match ps with | [] => [] | _ :: _ => ',' :: fieldsChars ps) := rfl

theorem readFieldsAux_roundtrip :
    ∀ (ps : List (String × String)) (fuel : Nat), ps ≠ [] →
      (∀ p ∈ ps, jsonPlain p.1 ∧ jsonPlain p.2) → ps.length ≤ fuel →
      readFieldsAux fuel (fieldsChars ps ++ ['}']) = some ps := by
  intro ps
  induction ps with
  | nil => intro fuel h; exact absurd rfl h
  | cons p ps ih =>
    intro fuel _ hplain hfuel
    obtain ⟨fuel, rfl⟩ : ∃ f, fuel = f + 1 := by
      cases fuel with
      | zero => simp at hfuel
      | succ f => exact ⟨f, rfl⟩
    have hk := (hplain p (List.mem_cons_self _ _)).1
    have hv := (hplain p (List.mem_cons_self _ _)).2
    cases ps with
    | nil =>
      have heq : fieldsChars [p] = fieldChars p := by
        rw [fieldsChars_cons_eq]
        exact List.append_nil _
      rw [heq, fieldChars_append]
      simp only [readFieldsAux, readJString_append (no_quote_of_plain hk),
        readJString_append (no_quote_of_plain hv)]
    | cons q qs =>
      have hstep : fieldsChars (p :: q :: qs) ++ ['}'] =
          fieldChars p ++ ',' :: (fieldsChars (q :: qs) ++ ['}']) := by
        rw [fieldsChars_cons_eq]
        simp [List.append_assoc]
      rw [hstep, fieldChars_append]
      have hrec := ih fuel (by simp) (fun x hx => hplain x (List.mem_cons_of_mem _ hx))
        (by simp only [List.length_cons] at hfuel ⊢; omega)
      simp only [readFieldsAux, readJString_append (no_quote_of_plain hk),
        readJString_append (no_quote_of_plain hv), hrec]
      rfl

theorem fieldChars_ne_nil (p : String × String) : fieldChars p ≠ [] := by
  rw [fieldChars]
  simp

theorem fieldsChars_cons_ne_nil (p : String × String) (ps : List (String × String)) :
    fieldsChars (p :: ps) ≠ [] := by
  rw [fieldsChars_cons_eq]
  intro h
  exact fieldChars_ne_nil p (List.append_eq_nil.mp h).1

theorem length_le_fieldsChars (ps : List (String × String)) :
    ps.length ≤ (fieldsChars ps).length := by
  induction ps with
  | nil => simp [fieldsChars]
  | cons p ps ih =>
    rw [fieldsChars_cons_eq]
    have hp : 1 ≤ (fieldChars p).length := by
      cases h : fieldChars p with
      | nil => exact absurd h (fieldChars_ne_nil p)
      | cons c cs => simp
    cases ps with
    | nil =>
      simp only [List.length_cons, List.length_nil, List.length_append]
      omega
    | cons q qs =>
      simp only [List.length_cons, List.length_append] at ih ⊢
      omega

theorem loadsFlat_dumpsFlat (ps : List (String × String))
    (hplain : ∀ p ∈ ps, jsonPlain p.1 ∧ jsonPlain p.2) :
    loadsFlat (dumpsFlat ps) = some ps := by
  cases ps with
  | nil => decide
  | cons p ps =>
    show (if fieldsChars (p :: ps) ++ ['}'] = ['}'] then some []
        else readFieldsAux (fieldsChars (p :: ps) ++ ['}']).length
          (fieldsChars (p :: ps) ++ ['}'])) = some (p :: ps)
    have hnotbrace : fieldsChars (p :: ps) ++ ['}'] ≠ ['}'] := by
      intro h
      have hlen := congrArg List.length h
      simp only [List.length_append, List.length_singleton] at hlen
      exact fieldsChars_cons_ne_nil p ps
        (List.eq_nil_of_length_eq_zero (by omega))
    rw [if_neg hnotbrace]
    exact readFieldsAux_roundtrip (p :: ps) _ (by simp) hplain
      (by
        have h1 := length_le_fieldsChars (p :: ps)
        simp only [List.length_append, List.length_singleton]
        omega)

theorem edVerify_edSign (k : Ed25519Priv) (d : SigData) :
    edVerify k.publicKey (edSign k d) d = true := by
  simp [edVerify, edSign, Ed25519Priv.publicKey]

theorem edVerify_edSign_ne (k : Ed25519Priv) (pk : Ed25519Pub) {d d' : SigData}
    (h : d' ≠ d) : edVerify pk (edSign k d) d' = false := by
  simp [edVerify, edSign]
  intro _
  exact fun heq => absurd heq.symm h

theorem decodePubB64_pubKeyB64 (k : Ed25519Pub) : decodePubB64 (pubKeyB64 k) = some k := by
  show (if !(natToDec k.raw).isEmpty && (natToDec k.raw).all isDigitChar
      then some ⟨decNum (natToDec k.raw)⟩ else none) = some k
  have hne : (natToDec k.raw).isEmpty = false := by
    cases h : natToDec k.raw with
    | nil => exact absurd h natToDec_ne_nil
    | cons c cs => simp [List.isEmpty]
  have hall : (natToDec k.raw).all isDigitChar = true := List.all_eq_true.mpr natToDec_digits
  simp [hne, hall, decNum_natToDec]

theorem pubKeyB64_plain (k : Ed25519Pub) : jsonPlain (pubKeyB64 k) := by
  intro c hc
  have hdata : (pubKeyB64 k).data = 'K' :: natToDec k.raw := rfl
  rw [hdata] at hc
  rcases List.mem_cons.mp hc with hc | hc
  · subst hc; decide
  · exact jsonPlainChar_of_digit (natToDec_digits c hc)

theorem pubKeyB64_ne_empty (k : Ed25519Pub) : pubKeyB64 k ≠ "" := by
  intro h
  have : (pubKeyB64 k).data = [] := by rw [h]
  simp [pubKeyB64] at this

theorem jlookup_head (k v : String) (rest : List (String × String)) :
    jlookup ((k, v) :: rest) k = some v := by
  rw [jlookup, List.find?_cons_of_pos _ (by simp)]
  rfl

theorem jlookup_tail (k k' v : String) (rest : List (String × String))
    (h : (k == k') = false) : jlookup ((k, v) :: rest) k' = jlookup rest k' := by
  rw [jlookup, List.find?_cons_of_neg _ (by simpa using h), jlookup]

theorem renderTs_ne_empty (t : Nat) : renderTs t ≠ "" := by
  intro h
  have hdata : (renderTs t).data = [] := by rw [h]
  have : (renderTs t).data = natToDec t ++ ['Z'] := rfl
  rw [this] at hdata
  simp at hdata

theorem loads_attestation_blob (did dpk : String) (e i : Nat)
    (h1 : jsonPlain did) (h2 : jsonPlain dpk) :
    loadsFlat (dumpsFlat
      [("device_id", did), ("device_public_key", dpk),
       ("expires_at", renderTs e), ("issued_at", renderTs i)]) =
    some [("device_id", did), ("device_public_key", dpk),
      ("expires_at", renderTs e), ("issued_at", renderTs i)] := by
  apply loadsFlat_dumpsFlat
  intro p hp
  simp only [List.mem_cons, List.not_mem_nil, or_false] at hp
  rcases hp with rfl | rfl | rfl | rfl
  · exact ⟨show jsonPlain "device_id" by decide, h1⟩
  · exact ⟨show jsonPlain "device_public_key" by decide, h2⟩
  · exact ⟨show jsonPlain "expires_at" by decide, renderTs_plain _⟩
  · exact ⟨show jsonPlain "issued_at" by decide, renderTs_plain _⟩

/-- Claim C1 (amended): for every master key `k`, device public key and
nonempty `device_id` of plain JSON characters, the attestation built by
`create_device_attestation` verifies under `k`'s public key over the
literal blob bytes, any other blob string fails that verification, and
— when the gateway's trust root is `k`'s public key, the blob is still
unexpired and the device's nonce signature is valid —
`verify_device_auth` returns ok with the blob's `device_id`. -/
theorem attestation_roundtrip (k : Ed25519Priv) (dk : Ed25519Pub) (device_id : String)
    (expires_days issued_at now : Nat) (nonce_hex : String) (nonce_bytes : List Nat)
    (nonce_signature : Sig) (fileKey : Option Ed25519Pub)
    (hplain : jsonPlain device_id) (hne : device_id ≠ "")
    (hhex : hexDecode nonce_hex = some nonce_bytes)
    (hns : edVerify dk nonce_signature (SigData.raw nonce_bytes) = true)
    (hfresh : now < issued_at + expires_days * SECONDS_PER_DAY) :
    let att := create_device_attestation k device_id (pubKeyB64 dk) expires_days issued_at
    edVerify k.publicKey att.desktop_signature (SigData.utf8 att.blob) = true ∧
    (∀ blob2 : String, blob2 ≠ att.blob →
      edVerify k.publicKey att.desktop_signature (SigData.utf8 blob2) = false) ∧
    verify_device_auth ⟨some k.publicKey, fileKey⟩ now nonce_hex att.blob
      att.desktop_signature nonce_signature = ⟨true, some device_id, none⟩ := by
  intro att
  have hsig : att.desktop_signature = edSign k (SigData.utf8 att.blob) := rfl
  have h1 : edVerify k.publicKey att.desktop_signature (SigData.utf8 att.blob) = true := by
    rw [hsig]; exact edVerify_edSign k _
  refine ⟨h1, ?_, ?_⟩
  · intro blob2 hne2
    rw [hsig]
    apply edVerify_edSign_ne
    intro heq
    injection heq with heq
    exact hne2 heq
  · have hblob : loadsFlat att.blob =
        some [("device_id", device_id), ("device_public_key", pubKeyB64 dk),
          ("expires_at", renderTs (issued_at + expires_days * SECONDS_PER_DAY)),
          ("issued_at", renderTs issued_at)] :=
      loads_attestation_blob device_id (pubKeyB64 dk) _ _ hplain (pubKeyB64_plain dk)
    have hd1 : strField (jlookup
        [("device_id", device_id), ("device_public_key", pubKeyB64 dk),
         ("expires_at", renderTs (issued_at + expires_days * SECONDS_PER_DAY)),
         ("issued_at", renderTs issued_at)] "device_id") = some device_id := by
      rw [jlookup_head]
      simp [strField, hne]
    have hd2 : strField (jlookup
        [("device_id", device_id), ("device_public_key", pubKeyB64 dk),
         ("expires_at", renderTs (issued_at + expires_days * SECONDS_PER_DAY)),
         ("issued_at", renderTs issued_at)] "device_public_key") = some (pubKeyB64 dk) := by
      rw [jlookup_tail _ _ _ _ (by decide), jlookup_head]
      simp [strField, pubKeyB64_ne_empty dk]
    have hd3 : strField (jlookup
        [("device_id", device_id), ("device_public_key", pubKeyB64 dk),
         ("expires_at", renderTs (issued_at + expires_days * SECONDS_PER_DAY)),
         ("issued_at", renderTs issued_at)] "expires_at") =
        some (renderTs (issued_at + expires_days * SECONDS_PER_DAY)) := by
      rw [jlookup_tail _ _ _ _ (by decide), jlookup_tail _ _ _ _ (by decide), jlookup_head]
      simp [strField, renderTs_ne_empty]
    have hexp : ¬ (issued_at + expires_days * SECONDS_PER_DAY ≤ now) := by omega
    simp only [verify_device_auth, h1, Bool.true_eq_false, if_false, hblob, hd1, hd2, hd3,
      parseTs_renderTs, hexp, if_false, decodePubB64_pubKeyB64, hhex, hns, if_true]

/-- Claim C1, counterexample to the unamended claim: with the empty
string as `device_id` — a legal argument of `create_device_attestation`
— the desktop signature still verifies, the expiry is in the future and
the nonce signature is valid, yet `verify_device_auth` rejects the
attestation with `attestation missing device_id` instead of returning
ok, because it requires a nonempty `device_id` field. -/
theorem attestation_roundtrip_empty_device_id :
    hexDecode "00" = some [0] ∧
    edVerify (Ed25519Pub.mk 1) (edSign ⟨1⟩ (SigData.raw [0])) (SigData.raw [0]) = true ∧
    (0 : Nat) < 0 + 1 * SECONDS_PER_DAY ∧
    edVerify (Ed25519Priv.mk 0).publicKey
      (create_device_attestation ⟨0⟩ "" (pubKeyB64 ⟨1⟩) 1 0).desktop_signature
      (SigData.utf8 (create_device_attestation ⟨0⟩ "" (pubKeyB64 ⟨1⟩) 1 0).blob) = true ∧
    verify_device_auth ⟨some (Ed25519Priv.mk 0).publicKey, none⟩ 0 "00"
      (create_device_attestation ⟨0⟩ "" (pubKeyB64 ⟨1⟩) 1 0).blob
      (create_device_attestation ⟨0⟩ "" (pubKeyB64 ⟨1⟩) 1 0).desktop_signature
      (edSign ⟨1⟩ (SigData.raw [0])) =
      ⟨false, none, some "attestation missing device_id"⟩ := by
  decide

/-- Claim C1, witness: the amended round-trip theorem applied at a
concrete master key, device key, device id and clock. -/
theorem attestation_roundtrip_witness :
    let att := create_device_attestation ⟨0⟩ "m1" (pubKeyB64 ⟨1⟩) 1 0
    edVerify (Ed25519Priv.mk 0).publicKey att.desktop_signature (SigData.utf8 att.blob) = true ∧
    (∀ blob2 : String, blob2 ≠ att.blob →
      edVerify (Ed25519Priv.mk 0).publicKey att.desktop_signature (SigData.utf8 blob2) = false) ∧
    verify_device_auth ⟨some (Ed25519Priv.mk 0).publicKey, none⟩ 0 "00" att.blob
      att.desktop_signature (edSign ⟨1⟩ (SigData.raw [0])) = ⟨true, some "m1", none⟩ :=
  attestation_roundtrip ⟨0⟩ ⟨1⟩ "m1" 1 0 0 "00" [0] (edSign ⟨1⟩ (SigData.raw [0])) none
    (by decide) (by decide) (by decide) (by decide) (by decide)

/-- Claim C2: `verify_desktop_claim` rejects an invalid nonce signature;
with a valid signature it persists the key and reports ok when the
store is unclaimed, reports ok without touching state when already
claimed with the same key, and rejects with a reason containing
`already claimed` — leaving the stored trust root unchanged — when
claimed with a different key. -/
theorem desktop_claim_semantics (st : GatewayAuthState) (key : Ed25519Pub) (sig : Sig)
    (nonceBytes : List Nat) :
    (edVerify key sig (SigData.raw nonceBytes) = false →
      verify_desktop_claim st key sig nonceBytes =
        (st, ⟨false, none, some "desktop claim signature invalid"⟩)) ∧
    (edVerify key sig (SigData.raw nonceBytes) = true → st.desktopKey = none →
      verify_desktop_claim st key sig nonceBytes =
        (⟨some key, some key⟩, ⟨true, none, none⟩)) ∧
    (edVerify key sig (SigData.raw nonceBytes) = true → st.desktopKey = some key →
      verify_desktop_claim st key sig nonceBytes = (st, ⟨true, none, none⟩)) ∧
    (∀ current : Ed25519Pub, edVerify key sig (SigData.raw nonceBytes) = true →
      st.desktopKey = some current → current ≠ key →
      verify_desktop_claim st key sig nonceBytes =
        (st, ⟨false, none, some "gateway already claimed by another desktop"⟩) ∧
      strContains "already claimed" "gateway already claimed by another desktop") := by
  refine ⟨?_, ?_, ?_, ?_⟩
  · intro h
    simp [verify_desktop_claim, h]
  · intro h hd
    simp [verify_desktop_claim, h, hd, saveState]
  · intro h hd
    simp [verify_desktop_claim, h, hd]
  · intro current h hd hne
    refine ⟨by simp [verify_desktop_claim, h, hd, hne], ?_⟩
    exact ⟨"gateway ".data, " by another desktop".data, by decide⟩

/-- Claim C2, witness: a gateway already claimed by key 5 rejects a
claim with key 7 even though the nonce signature is valid, leaving the
trust root unchanged. -/
theorem desktop_claim_semantics_witness :
    verify_desktop_claim ⟨some ⟨5⟩, some ⟨5⟩⟩ ⟨7⟩ (edSign ⟨7⟩ (SigData.raw [1])) [1] =
      (⟨some ⟨5⟩, some ⟨5⟩⟩, ⟨false, none, some "gateway already claimed by another desktop"⟩) ∧
    strContains "already claimed" "gateway already claimed by another desktop" :=
  (desktop_claim_semantics ⟨some ⟨5⟩, some ⟨5⟩⟩ ⟨7⟩ (edSign ⟨7⟩ (SigData.raw [1])) [1]).2.2.2
    ⟨5⟩ (by decide) rfl (by decide)

theorem jGet_nil (k : String) : jGet [] k = none := rfl

theorem jGet_cons (p : String × JVal) (ps : JObj) (k : String) :
    jGet (p :: ps) k = if (p.1 == k) = true then some p.2 else jGet ps k := by
  cases hpk : (p.1 == k) with
  | true => simp [jGet, List.find?, hpk]
  | false => simp [jGet, List.find?, hpk]

theorem jGet_set_map (k : String) (v : JVal) :
    ∀ m : JObj, m.any (fun p => p.1 == k) = true →
      jGet (m.map (fun p => if p.1 == k then (p.1, v) else p)) k = some v := by
  intro m
  induction m with
  | nil => intro hany; simp at hany
  | cons p ps ih =>
    intro hany
    by_cases hpk : (p.1 == k) = true
    · simp only [List.map_cons, if_pos hpk, jGet_cons, hpk, if_true]
    · have hf : (p.1 == k) = false := eq_false_of_ne_true hpk
      have hany' : ps.any (fun q => q.1 == k) = true := by
        simpa [List.any_cons, hf] using hany
      simp only [List.map_cons, hf, Bool.false_eq_true, if_false, jGet_cons]
      exact ih hany'

theorem jGet_set_append (k : String) (v : JVal) :
    ∀ m : JObj, m.any (fun p => p.1 == k) = false →
      jGet (m ++ [(k, v)]) k = some v := by
  intro m
  induction m with
  | nil =>
    intro _
    simp [jGet_cons]
  | cons p ps ih =>
    intro hany
    have hf : (p.1 == k) = false := by
      cases hpk : (p.1 == k) with
      | true => simp [List.any_cons, hpk] at hany
      | false => rfl
    have hany' : ps.any (fun q => q.1 == k) = false := by
      simpa [List.any_cons, hf] using hany
    rw [List.cons_append, jGet_cons, if_neg (by simp [hf])]
    exact ih hany'

theorem jGet_map_ne (k k' : String) (v : JVal) (h : k' ≠ k) :
    ∀ m : JObj,
      jGet (m.map (fun p => if p.1 == k then (p.1, v) else p)) k' = jGet m k' := by
  intro m
  induction m with
  | nil => rfl
  | cons p ps ih =>
    by_cases hpk : (p.1 == k) = true
    · have hp1 : p.1 = k := by simpa using hpk
      have hmiss : (p.1 == k') = false := by
        simp [hp1]
        exact fun heq => h heq.symm
      simp only [List.map_cons, if_pos hpk, jGet_cons, hmiss, Bool.false_eq_true, if_false]
      exact ih
    · have hf : (p.1 == k) = false := eq_false_of_ne_true hpk
      simp only [List.map_cons, hf, Bool.false_eq_true, if_false, jGet_cons]
      by_cases hpk' : (p.1 == k') = true
      · simp [hpk']
      · have hf' : (p.1 == k') = false := eq_false_of_ne_true hpk'
        simp only [hf', Bool.false_eq_true, if_false]
        exact ih

theorem jGet_append_ne (k k' : String) (v : JVal) (h : k' ≠ k) :
    ∀ m : JObj, jGet (m ++ [(k, v)]) k' = jGet m k' := by
  intro m
  induction m with
  | nil =>
    have hmiss : (k == k') = false := by
      simp
      exact fun heq => h heq.symm
    simp [jGet_cons, hmiss, jGet_nil]
  | cons p ps ih =>
    rw [List.cons_append, jGet_cons, jGet_cons]
    by_cases hpk' : (p.1 == k') = true
    · simp [hpk']
    · have hf' : (p.1 == k') = false := eq_false_of_ne_true hpk'
      simp only [hf', Bool.false_eq_true, if_false]
      exact ih

theorem jGet_jSet_same (m : JObj) (k : String) (v : JVal) :
    jGet (jSet m k v) k = some v := by
  rw [jSet]
  by_cases hany : m.any (fun p => p.1 == k) = true
  · rw [if_pos hany]
    exact jGet_set_map k v m hany
  · rw [if_neg hany]
    exact jGet_set_append k v m (eq_false_of_ne_true hany)

theorem jGet_jSet_ne (m : JObj) (k k' : String) (v : JVal) (h : k' ≠ k) :
    jGet (jSet m k v) k' = jGet m k' := by
  rw [jSet]
  by_cases hany : m.any (fun p => p.1 == k) = true
  · rw [if_pos hany]
    exact jGet_map_ne k k' v h m
  · rw [if_neg hany]
    exact jGet_append_ne k k' v h m

theorem relay_message_frame (reg : List (String × Nat)) (sender_id : String) (msg : JObj) :
    ∀ q ∈ relay_message reg sender_id msg,
      q.2 = jSet msg "sender_device_id" (JVal.str sender_id) := by
  intro q hq
  simp only [relay_message] at hq
  cases htd : jGet (jSet msg "sender_device_id" (JVal.str sender_id)) "target_device_id" with
  | none =>
    rw [htd] at hq
    simp only [] at hq
    obtain ⟨p, _, hf⟩ := List.mem_filterMap.mp hq
    by_cases hps : (p.1 == sender_id) = true
    · simp [hps] at hf
    · simp only [hps, Bool.false_eq_true, if_false, Option.some_inj] at hf
      rw [← hf]
  | some target =>
    rw [htd] at hq
    cases htr : truthy (some target) with
    | false =>
      simp only [htr, Bool.false_eq_true, if_false] at hq
      obtain ⟨p, _, hf⟩ := List.mem_filterMap.mp hq
      by_cases hps : (p.1 == sender_id) = true
      · simp [hps] at hf
      · simp only [hps, Bool.false_eq_true, if_false, Option.some_inj] at hf
        rw [← hf]
    | true =>
      simp only [htr, if_true] at hq
      cases hreg : regGet reg target with
      | none => rw [hreg] at hq; simp at hq
      | some ws =>
        rw [hreg] at hq
        have := List.mem_singleton.mp hq
        rw [this]

/-- Claim C4: every frame copy the gateway delivers carries
`sender_device_id` equal to the authenticated id of the sending
connection, regardless of any value the client supplied in the frame. -/
theorem relay_sender_stamped (reg : List (String × Nat)) (sender_id : String) (msg : JObj) :
    ∀ q ∈ relay_message reg sender_id msg,
      jGet q.2 "sender_device_id" = some (JVal.str sender_id) := by
  intro q hq
  rw [relay_message_frame reg sender_id msg q hq]
  exact jGet_jSet_same msg _ _

/-- Claim C4, witness: a broadcast frame that spoofed
`sender_device_id` is delivered with the authenticated id instead. -/
theorem relay_sender_stamped_witness :
    jGet [("sender_device_id", JVal.str "d1")] "sender_device_id" = some (JVal.str "d1") :=
  relay_sender_stamped [("d2", 2)] "d1" [("sender_device_id", JVal.str "spoofed")]
    (2, [("sender_device_id", JVal.str "d1")]) (List.mem_singleton.mpr rfl)

/-- Claim C5 (amended): a frame whose `target_device_id` is a nonempty
string matching a registered id is unicast to exactly that connection;
a truthy `target_device_id` matching no registered id is dropped; an
absent or falsy `target_device_id` (absent key, `null`, empty string,
zero, `false`, empty array or object) is broadcast to every registered
connection except the sender's own. -/
theorem relay_routing (reg : List (String × Nat)) (sender_id : String) (msg : JObj) :
    (∀ s ws, jGet msg "target_device_id" = some (JVal.str s) → s ≠ "" →
      regFind reg s = some ws →
      relay_message reg sender_id msg =
        [(ws, jSet msg "sender_device_id" (JVal.str sender_id))]) ∧
    (∀ tv, jGet msg "target_device_id" = some tv → truthy (some tv) = true →
      regGet reg tv = none → relay_message reg sender_id msg = []) ∧
    (truthy (jGet msg "target_device_id") = false →
      relay_message reg sender_id msg =
        reg.filterMap (fun p => if p.1 == sender_id then none
          else some (p.2, jSet msg "sender_device_id" (JVal.str sender_id)))) := by
  have hpass : jGet (jSet msg "sender_device_id" (JVal.str sender_id)) "target_device_id" =
      jGet msg "target_device_id" :=
    jGet_jSet_ne msg _ _ _ (by decide)
  refine ⟨?_, ?_, ?_⟩
  · intro s ws h1 h2 h3
    have hs : (s == "") = false := by simpa using h2
    simp only [relay_message, hpass, h1]
    simp [truthy, hs, regGet, h3]
  · intro tv h1 h2 h3
    simp only [relay_message, hpass, h1]
    simp [h2, h3]
  · intro h1
    cases htd : jGet msg "target_device_id" with
    | none => simp only [relay_message, hpass, htd]
    | some tv =>
      rw [htd] at h1
      simp only [relay_message, hpass, htd, h1, Bool.false_eq_true, if_false]

/-- Claim C5, counterexample to the unamended claim: the frame
`{"target_device_id": ""}` has a string `target_device_id` that is
present and matches no registered id, so the claim requires it to be
dropped; the code treats the empty string as falsy (`if target_id:`)
and broadcasts it, here delivering it to `d2`. -/
theorem relay_routing_empty_target :
    relay_message [("d2", 2)] "d1" [("target_device_id", JVal.str "")] =
      [(2, [("target_device_id", JVal.str ""), ("sender_device_id", JVal.str "d1")])] ∧
    jGet [("target_device_id", JVal.str "")] "target_device_id" = some (JVal.str "") ∧
    regFind [("d2", 2)] "" = none :=
  ⟨rfl, rfl, rfl⟩

/-- Claim C5, witness: a unicast to a registered target. -/
theorem relay_routing_witness :
    relay_message [("d1", 1), ("d2", 2)] "d1" [("target_device_id", JVal.str "d2")] =
      [(2, jSet [("target_device_id", JVal.str "d2")] "sender_device_id" (JVal.str "d1"))] :=
  (relay_routing [("d1", 1), ("d2", 2)] "d1" [("target_device_id", JVal.str "d2")]).1
    "d2" 2 rfl (by decide) rfl

theorem byIdInsert_mem_snd (m : List (String × ApprovedDevice)) (d : ApprovedDevice) :
    d ∈ (byIdInsert m d).map (fun p => p.2) := by
  rw [byIdInsert]
  by_cases hany : m.any (fun p => p.1 == d.device_id) = true
  · rw [if_pos hany]
    obtain ⟨p, hp, hpe⟩ := List.any_eq_true.mp hany
    have hmem : ((p.1, d) : String × ApprovedDevice) ∈
        m.map (fun p => if p.1 == d.device_id then (p.1, d) else p) :=
      List.mem_map.mpr ⟨p, hp, by simp [hpe]⟩
    exact List.mem_map.mpr ⟨(p.1, d), hmem, rfl⟩
  · rw [if_neg hany]
    refine List.mem_map.mpr ⟨(d.device_id, d), ?_, rfl⟩
    exact List.mem_append.mpr (Or.inr (List.mem_singleton.mpr rfl))

theorem mem_upsert_self (ds : List ApprovedDevice) (d : ApprovedDevice) :
    d ∈ upsert_approved_device ds d :=
  (List.perm_insertionSort devLe _).mem_iff.mpr (byIdInsert_mem_snd _ d)

theorem foldl_byIdInsert_append :
    ∀ (ds : List ApprovedDevice) (acc : List (String × ApprovedDevice)),
      (ds.map (fun r => r.device_id)).Nodup →
      (∀ p ∈ acc, ∀ e ∈ ds, p.1 ≠ e.device_id) →
      ds.foldl byIdInsert acc = acc ++ ds.map (fun e => (e.device_id, e)) := by
  intro ds
  induction ds with
  | nil => intro acc _ _; simp
  | cons d ds ih =>
    intro acc hnodup hdisj
    have hnotmem : d.device_id ∉ ds.map (fun r => r.device_id) :=
      (List.nodup_cons.mp (by simpa using hnodup)).1
    have hanyf : acc.any (fun p => p.1 == d.device_id) = false := by
      cases hx : acc.any (fun p => p.1 == d.device_id) with
      | false => rfl
      | true =>
        obtain ⟨p, hp, hpe⟩ := List.any_eq_true.mp hx
        exact absurd (by simpa using hpe) (hdisj p hp d (List.mem_cons_self _ _))
    have hstep : byIdInsert acc d = acc ++ [(d.device_id, d)] := by
      rw [byIdInsert, if_neg (by simp [hanyf])]
    have hdisj' : ∀ p ∈ acc ++ [(d.device_id, d)], ∀ e ∈ ds, p.1 ≠ e.device_id := by
      intro p hp e he heq
      rcases List.mem_append.mp hp with hp | hp
      · exact hdisj p hp e (List.mem_cons_of_mem _ he) heq
      · have hpd : p = (d.device_id, d) := List.mem_singleton.mp hp
        apply hnotmem
        have hde : d.device_id = e.device_id := by rw [← heq, hpd]
        rw [hde]
        exact List.mem_map.mpr ⟨e, he, rfl⟩
    rw [List.foldl_cons, hstep,
      ih (acc ++ [(d.device_id, d)]) (List.nodup_cons.mp (by simpa using hnodup)).2 hdisj']
    simp [List.append_assoc]

theorem buildById_eq (ds : List ApprovedDevice)
    (h : (ds.map (fun r => r.device_id)).Nodup) :
    buildById ds = ds.map (fun e => (e.device_id, e)) := by
  simpa using foldl_byIdInsert_append ds [] h (by simp)

theorem upsert_vals_eq (ds : List ApprovedDevice) (d : ApprovedDevice)
    (h : (ds.map (fun r => r.device_id)).Nodup) :
    (byIdInsert (buildById ds) d).map (fun p => p.2) =
      if ds.any (fun x => x.device_id == d.device_id) = true
      then ds.map (fun x => if x.device_id == d.device_id then d else x)
      else ds ++ [d] := by
  rw [buildById_eq ds h, byIdInsert]
  have hany : ∀ l : List ApprovedDevice,
      (l.map (fun e => (e.device_id, e))).any (fun p => p.1 == d.device_id)
        = l.any (fun x => x.device_id == d.device_id) := by
    intro l
    induction l with
    | nil => rfl
    | cons x xs ih => simp [List.any_cons, ih]
  rw [hany ds]
  by_cases hc : ds.any (fun x => x.device_id == d.device_id) = true
  · rw [if_pos (by simp [hc]), if_pos hc, List.map_map, List.map_map]
    apply List.map_congr_left
    intro x _
    by_cases hx : (x.device_id == d.device_id) = true
    · simp [Function.comp, hx]
    · simp [Function.comp, eq_false_of_ne_true hx]
  · rw [if_neg (by simp [hc]), if_neg hc, List.map_append, List.map_map]
    have hid : ((fun p => p.2) ∘ fun e : ApprovedDevice => (e.device_id, e)) =
        fun x : ApprovedDevice => x := rfl
    rw [hid, List.map_id']
    rfl

theorem filter_eq_nil_of_no_match (ds : List ApprovedDevice) (did : String)
    (h : ∀ y ∈ ds, (y.device_id == did) = false) :
    ds.filter (fun r => r.device_id == did) = [] := by
  induction ds with
  | nil => rfl
  | cons x xs ih =>
    rw [List.filter_cons, if_neg (by simp [h x (List.mem_cons_self _ _)])]
    exact ih (fun y hy => h y (List.mem_cons_of_mem _ hy))

theorem filter_replace (ds : List ApprovedDevice) (d : ApprovedDevice)
    (hnodup : (ds.map (fun r => r.device_id)).Nodup)
    (hany : ds.any (fun x => x.device_id == d.device_id) = true) :
    (ds.map (fun x => if x.device_id == d.device_id then d else x)).filter
      (fun r => r.device_id == d.device_id) = [d] := by
  induction ds with
  | nil => simp at hany
  | cons x xs ih =>
    have hx_notmem : x.device_id ∉ xs.map (fun r => r.device_id) :=
      (List.nodup_cons.mp (by simpa using hnodup)).1
    have hnodup' : (xs.map (fun r => r.device_id)).Nodup :=
      (List.nodup_cons.mp (by simpa using hnodup)).2
    by_cases hx : (x.device_id == d.device_id) = true
    · have hxid : x.device_id = d.device_id := by simpa using hx
      have hnone : ∀ y ∈ xs, (y.device_id == d.device_id) = false := by
        intro y hy
        cases hyy : (y.device_id == d.device_id) with
        | false => rfl
        | true =>
          have : y.device_id = d.device_id := by simpa using hyy
          exact absurd (List.mem_map.mpr ⟨y, hy, by rw [this, ← hxid]⟩) hx_notmem
      rw [List.map_cons, if_pos hx, List.filter_cons, if_pos (by simp)]
      have hmapped : ∀ y ∈ xs.map (fun z => if z.device_id == d.device_id then d else z),
          (y.device_id == d.device_id) = false := by
        intro y hy
        obtain ⟨z, hz, rfl⟩ := List.mem_map.mp hy
        rw [if_neg (by simp [hnone z hz])]
        exact hnone z hz
      rw [filter_eq_nil_of_no_match _ _ hmapped]
    · have hxf : (x.device_id == d.device_id) = false := eq_false_of_ne_true hx
      have hany' : xs.any (fun y => y.device_id == d.device_id) = true := by
        cases hx2 : xs.any (fun y => y.device_id == d.device_id) with
        | true => rfl
        | false =>
          rw [List.any_cons, hxf, hx2] at hany
          simp at hany
      rw [List.map_cons, if_neg (by simp [hxf]), List.filter_cons, if_neg (by simp [hxf])]
      exact ih hnodup' hany'

theorem filter_append_new (ds : List ApprovedDevice) (d : ApprovedDevice)
    (hany : ds.any (fun x => x.device_id == d.device_id) = false) :
    (ds ++ [d]).filter (fun r => r.device_id == d.device_id) = [d] := by
  have hnone : ∀ y ∈ ds, (y.device_id == d.device_id) = false := by
    intro y hy
    cases hyy : (y.device_id == d.device_id) with
    | false => rfl
    | true =>
      have hcontr : ds.any (fun x => x.device_id == d.device_id) = true :=
        List.any_eq_true.mpr ⟨y, hy, by simp [hyy]⟩
      rw [hany] at hcontr
      exact absurd hcontr (by simp)
  rw [List.filter_append, filter_eq_nil_of_no_match _ _ hnone, List.filter_cons,
    if_pos (by simp)]
  rfl

theorem map_id_replace (ds : List ApprovedDevice) (d : ApprovedDevice) :
    ((ds.map (fun x => if x.device_id == d.device_id then d else x)).map
      (fun r => r.device_id)) = ds.map (fun r => r.device_id) := by
  rw [List.map_map]
  apply List.map_congr_left
  intro x _
  by_cases hx : (x.device_id == d.device_id) = true
  · have hxid : x.device_id = d.device_id := by simpa using hx
    simp [Function.comp, hx, hxid]
  · simp [Function.comp, eq_false_of_ne_true hx]

/-- Claim C10 (amended): starting from a persisted list with at most
one record per `device_id`, `upsert_approved_device d` produces a list
that contains exactly one record with `d`'s id — the new record —
keeps ids pairwise distinct, is sorted ascending by `device_id`, and
preserves every record whose id differs from `d`'s. -/
theorem upsert_unique_sorted (ds : List ApprovedDevice) (d : ApprovedDevice)
    (hnodup : (ds.map (fun r => r.device_id)).Nodup) :
    (upsert_approved_device ds d).filter (fun r => r.device_id == d.device_id) = [d] ∧
    ((upsert_approved_device ds d).map (fun r => r.device_id)).Nodup ∧
    List.Sorted devLe (upsert_approved_device ds d) ∧
    (∀ r ∈ ds, r.device_id ≠ d.device_id → r ∈ upsert_approved_device ds d) := by
  have hperm : List.Perm (upsert_approved_device ds d)
      ((byIdInsert (buildById ds) d).map (fun p => p.2)) :=
    List.perm_insertionSort devLe _
  have hvals := upsert_vals_eq ds d hnodup
  refine ⟨?_, ?_, ?_, ?_⟩
  · apply List.perm_singleton.mp
    refine (hperm.filter _).trans ?_
    rw [hvals]
    by_cases hc : ds.any (fun x => x.device_id == d.device_id) = true
    · rw [if_pos hc, filter_replace ds d hnodup hc]
    · rw [if_neg hc, filter_append_new ds d (eq_false_of_ne_true hc)]
  · rw [(hperm.map (fun r => r.device_id)).nodup_iff, hvals]
    by_cases hc : ds.any (fun x => x.device_id == d.device_id) = true
    · rw [if_pos hc, map_id_replace]
      exact hnodup
    · rw [if_neg hc, List.map_append]
      refine hnodup.append (by simp) ?_
      intro a ha hb
      have hbd : a = d.device_id := by simpa using hb
      obtain ⟨y, hy, hya⟩ := List.mem_map.mp ha
      have hyd : (y.device_id == d.device_id) = true := by simp [hya, hbd]
      have hcontr : ds.any (fun x => x.device_id == d.device_id) = true :=
        List.any_eq_true.mpr ⟨y, hy, by simp [hyd]⟩
      exact absurd hcontr hc
  · exact List.sorted_insertionSort devLe _
  · intro r hr hne
    apply hperm.mem_iff.mpr
    rw [hvals]
    by_cases hc : ds.any (fun x => x.device_id == d.device_id) = true
    · rw [if_pos hc]
      exact List.mem_map.mpr ⟨r, hr, by rw [if_neg (by simp [hne])]⟩
    · rw [if_neg hc]
      exact List.mem_append.mpr (Or.inl hr)

/-- Claim C10, counterexample to the unamended claim: a starting list
holding two records for the same id `e` (possible in the persisted
JSON file, over which the claim quantifies) loses its first `e` record:
the dict comprehension keeps only the last record per id, so the first
one is not preserved in the saved list. -/
theorem upsert_duplicate_start_loses_record :
    upsert_approved_device
      [⟨"e", "k1", 0, none, []⟩, ⟨"e", "k2", 0, none, []⟩] ⟨"d", "kd", 0, none, []⟩ =
      [⟨"d", "kd", 0, none, []⟩, ⟨"e", "k2", 0, none, []⟩] ∧
    (⟨"e", "k1", 0, none, []⟩ : ApprovedDevice) ∉
      upsert_approved_device
        [⟨"e", "k1", 0, none, []⟩, ⟨"e", "k2", 0, none, []⟩] ⟨"d", "kd", 0, none, []⟩ := by
  decide

/-- Claim C10, witness: upserting a new device into a one-element,
duplicate-free store. -/
theorem upsert_unique_sorted_witness :
    (upsert_approved_device [⟨"b", "kb", 0, none, []⟩] ⟨"a", "ka", 1, none, []⟩).filter
      (fun r => r.device_id == "a") = [⟨"a", "ka", 1, none, []⟩] ∧
    ((upsert_approved_device [⟨"b", "kb", 0, none, []⟩] ⟨"a", "ka", 1, none, []⟩).map
      (fun r => r.device_id)).Nodup ∧
    List.Sorted devLe (upsert_approved_device [⟨"b", "kb", 0, none, []⟩] ⟨"a", "ka", 1, none, []⟩) ∧
    (∀ r ∈ [(⟨"b", "kb", 0, none, []⟩ : ApprovedDevice)], r.device_id ≠ "a" →
      r ∈ upsert_approved_device [⟨"b", "kb", 0, none, []⟩] ⟨"a", "ka", 1, none, []⟩) :=
  upsert_unique_sorted [⟨"b", "kb", 0, none, []⟩] ⟨"a", "ka", 1, none, []⟩ (by decide)

theorem mobile_id_plain (uuidHex : List Char)
    (hhex : ∀ c ∈ uuidHex, isLowerHexChar c = true) :
    jsonPlain (String.mk ("mobile-".data ++ uuidHex.take 12)) := by
  intro c hc
  have hdata : (String.mk ("mobile-".data ++ uuidHex.take 12)).data =
      "mobile-".data ++ uuidHex.take 12 := rfl
  rw [hdata] at hc
  rcases List.mem_append.mp hc with hc | hc
  · exact (show jsonPlain "mobile-" by decide) c hc
  · exact jsonPlainChar_of_lower_hex (hhex c (List.take_subset _ _ hc))

theorem mobile_id_ne_empty (l : List Char) : String.mk ("mobile-".data ++ l) ≠ "" := by
  intro h
  have hdata := congrArg String.data h
  simp at hdata

theorem attestation_blob_expires (key : Ed25519Priv) (did dpk : String) (days i : Nat)
    (h1 : jsonPlain did) (h2 : jsonPlain dpk) :
    (match loadsFlat (create_device_attestation key did dpk days i).blob with
     | some blob =>
       match jlookup blob "expires_at" with
       | some s => parseTs s
       | none => none
     | none => none) = some (i + days * SECONDS_PER_DAY) := by
  have hl : loadsFlat (create_device_attestation key did dpk days i).blob =
      some [("device_id", did), ("device_public_key", dpk),
        ("expires_at", renderTs (i + days * SECONDS_PER_DAY)), ("issued_at", renderTs i)] :=
    loads_attestation_blob did dpk _ _ h1 h2
  rw [hl]
  show (match jlookup [("device_id", did), ("device_public_key", dpk),
      ("expires_at", renderTs (i + days * SECONDS_PER_DAY)), ("issued_at", renderTs i)]
      "expires_at" with
    | some s => parseTs s
    | none => none) = some (i + days * SECONDS_PER_DAY)
  rw [jlookup_tail _ _ _ _ (by decide), jlookup_tail _ _ _ _ (by decide), jlookup_head]
  show parseTs (renderTs (i + days * SECONDS_PER_DAY)) = some (i + days * SECONDS_PER_DAY)
  exact parseTs_renderTs _

/-- Claim C3 (amended): for a `pairing_request` with well-formed
nonempty string fields — if no session is stored the Hub rejects with
`no_active_pairing_session`; if the stored session is already expired
when loaded, the load clears it and the Hub likewise rejects with
`no_active_pairing_session`; if the session loads but fails the
handler's re-check or its code differs from `pairing_code`, the Hub
rejects with `pairing_code_invalid_or_expired`; if it is within TTL at
both readings and the code matches exactly, the Hub responds approved
with a device id of the form `mobile-` + 12 hex characters and an
attestation, upserts the approved device, and clears the session, so a
subsequent request with the same code is rejected
`no_active_pairing_session`. -/
theorem pairing_request_handling (st : HubState) (key : Ed25519Priv) (expires_days : Nat)
    (request_id pairing_code device_public_key : String)
    (tLoad tCheck tIssue tPair : Nat) (uuidHex : List Char)
    (hrid : request_id ≠ "") (hcode : pairing_code ≠ "") (hdpk : device_public_key ≠ "")
    (hdpkPlain : jsonPlain device_public_key)
    (hhex : ∀ c ∈ uuidHex, isLowerHexChar c = true) (hlen : uuidHex.length = 32) :
    (st.session = none →
      on_pairing_request st key expires_days request_id pairing_code device_public_key
        tLoad tCheck tIssue tPair uuidHex =
      (st, [mkRejected request_id "no_active_pairing_session"])) ∧
    (∀ s, st.session = some s → s.is_valid tLoad = false →
      on_pairing_request st key expires_days request_id pairing_code device_public_key
        tLoad tCheck tIssue tPair uuidHex =
      (⟨none, st.devices⟩, [mkRejected request_id "no_active_pairing_session"])) ∧
    (∀ s, st.session = some s → s.is_valid tLoad = true →
      (s.is_valid tCheck = false ∨ s.code ≠ pairing_code) →
      on_pairing_request st key expires_days request_id pairing_code device_public_key
        tLoad tCheck tIssue tPair uuidHex =
      (st, [mkRejected request_id "pairing_code_invalid_or_expired"])) ∧
    (∀ s, st.session = some s → s.is_valid tLoad = true → s.is_valid tCheck = true →
      s.code = pairing_code →
      (let device_id := String.mk ("mobile-".data ++ uuidHex.take 12)
       let att := create_device_attestation key device_id device_public_key
         expires_days tIssue
       let newdev : ApprovedDevice := ⟨device_id, device_public_key, tPair,
         some (tIssue + expires_days * SECONDS_PER_DAY), [("source", "gateway_pairing")]⟩
       on_pairing_request st key expires_days request_id pairing_code device_public_key
         tLoad tCheck tIssue tPair uuidHex =
         (⟨none, upsert_approved_device st.devices newdev⟩,
          [mkApproved request_id device_id att]) ∧
       (uuidHex.take 12).length = 12 ∧
       (∀ c ∈ uuidHex.take 12, isLowerHexChar c = true) ∧
       device_id.data = "mobile-".data ++ uuidHex.take 12 ∧
       newdev ∈ upsert_approved_device st.devices newdev ∧
       (∀ t1 t2 t3 t4 u2,
         on_pairing_request ⟨none, upsert_approved_device st.devices newdev⟩ key
           expires_days request_id pairing_code device_public_key t1 t2 t3 t4 u2 =
         (⟨none, upsert_approved_device st.devices newdev⟩,
          [mkRejected request_id "no_active_pairing_session"])))) := by
  refine ⟨?_, ?_, ?_, ?_⟩
  · intro hs
    have hload : load_pairing_session st tLoad = (none, st) := by
      simp [load_pairing_session, hs]
    simp only [on_pairing_request, if_neg hrid, if_neg hcode, if_neg hdpk, hload]
  · intro s hs hv
    have hload : load_pairing_session st tLoad = (none, ⟨none, st.devices⟩) := by
      simp [load_pairing_session, hs, hv]
    simp only [on_pairing_request, if_neg hrid, if_neg hcode, if_neg hdpk, hload]
  · intro s hs hv1 hbad
    have hload : load_pairing_session st tLoad = (some s, st) := by
      simp [load_pairing_session, hs, hv1]
    have hcond : ¬ (s.is_valid tCheck = true) ∨ s.code ≠ pairing_code := by
      rcases hbad with h | h
      · left; simp [h]
      · right; exact h
    simp only [on_pairing_request, if_neg hrid, if_neg hcode, if_neg hdpk, hload,
      if_pos hcond]
  · intro s hs hv1 hv2 hceq
    intro device_id att newdev
    have hload : load_pairing_session st tLoad = (some s, st) := by
      simp [load_pairing_session, hs, hv1]
    have hcond : ¬ (¬ (s.is_valid tCheck = true) ∨ s.code ≠ pairing_code) := by
      simp [hv2, hceq]
    have hexp := attestation_blob_expires key device_id device_public_key
      expires_days tIssue (mobile_id_plain uuidHex hhex) hdpkPlain
    refine ⟨?_, ?_, ?_, rfl, mem_upsert_self _ _, ?_⟩
    · simp only [on_pairing_request, if_neg hrid, if_neg hcode, if_neg hdpk, hload,
        if_neg hcond, hexp]
    · rw [List.length_take, hlen]
      decide
    · intro c hc
      exact hhex c (List.take_subset _ _ hc)
    · intro t1 t2 t3 t4 u2
      have hload2 : load_pairing_session ⟨none, upsert_approved_device st.devices newdev⟩ t1
          = (none, ⟨none, upsert_approved_device st.devices newdev⟩) := by
        simp [load_pairing_session]
      simp only [on_pairing_request, if_neg hrid, if_neg hcode, if_neg hdpk, hload2]

/-- Claim C3, counterexample to the unamended claim: a stored session
exists (`code="135246"`, created at 0, ttl 300) but is expired at the
load reading 300, and the request carries the matching code; the claim
requires rejection reason `pairing_code_invalid_or_expired`, yet the
handler rejects with `no_active_pairing_session`, because
`load_pairing_session` clears an expired session and reports it
absent. -/
theorem pairing_request_expired_session_reason :
    (⟨some ⟨"135246", 0, 300⟩, []⟩ : HubState).session = some ⟨"135246", 0, 300⟩ ∧
    PairingSession.is_valid ⟨"135246", 0, 300⟩ 300 = false ∧
    on_pairing_request ⟨some ⟨"135246", 0, 300⟩, []⟩ ⟨0⟩ 30 "r1" "135246" "kpub"
      300 300 300 300 [] =
      (⟨none, []⟩, [mkRejected "r1" "no_active_pairing_session"]) := by
  decide

/-- Claim C3, witness: the amended handler theorem applied to a valid
session with the matching code. -/
theorem pairing_request_handling_witness :
    (let device_id := String.mk
       ("mobile-".data ++ ("00112233445566778899aabbccddeeff".data.take 12))
     let att := create_device_attestation ⟨0⟩ device_id "kpub" 30 7
     let newdev : ApprovedDevice := ⟨device_id, "kpub", 9,
       some (7 + 30 * SECONDS_PER_DAY), [("source", "gateway_pairing")]⟩
     on_pairing_request ⟨some ⟨"135246", 0, 300⟩, []⟩ ⟨0⟩ 30 "r1" "135246" "kpub"
       10 11 7 9 "00112233445566778899aabbccddeeff".data =
       (⟨none, upsert_approved_device [] newdev⟩,
        [mkApproved "r1" device_id att]) ∧
     ("00112233445566778899aabbccddeeff".data.take 12).length = 12 ∧
     (∀ c ∈ "00112233445566778899aabbccddeeff".data.take 12, isLowerHexChar c = true) ∧
     device_id.data = "mobile-".data ++ "00112233445566778899aabbccddeeff".data.take 12 ∧
     newdev ∈ upsert_approved_device [] newdev ∧
     (∀ t1 t2 t3 t4 u2,
       on_pairing_request ⟨none, upsert_approved_device [] newdev⟩ ⟨0⟩ 30
         "r1" "135246" "kpub" t1 t2 t3 t4 u2 =
       (⟨none, upsert_approved_device [] newdev⟩,
        [mkRejected "r1" "no_active_pairing_session"]))) :=
  (pairing_request_handling ⟨some ⟨"135246", 0, 300⟩, []⟩ ⟨0⟩ 30 "r1" "135246" "kpub"
      10 11 7 9 "00112233445566778899aabbccddeeff".data
      (by decide) (by decide) (by decide) (by decide) (by decide) (by decide)).2.2.2
    ⟨"135246", 0, 300⟩ rfl (by decide) (by decide) rfl

/-- Claim C7 (amended): on a `pairing_request` whose code differs from
the active valid session's code, the Hub sends a rejected
`pairing_response` with reason `pairing_code_invalid_or_expired` and
the pairing session is NOT cleared: the stored session survives the
rejection (it is removed only on success, or on load once expired). -/
theorem pairing_wrong_code_keeps_session (st : HubState) (s : PairingSession)
    (key : Ed25519Priv) (expires_days : Nat)
    (request_id pairing_code device_public_key : String)
    (tLoad tCheck tIssue tPair : Nat) (uuidHex : List Char)
    (hrid : request_id ≠ "") (hcode : pairing_code ≠ "") (hdpk : device_public_key ≠ "")
    (hsess : st.session = some s) (hv1 : s.is_valid tLoad = true)
    (hne : s.code ≠ pairing_code) :
    on_pairing_request st key expires_days request_id pairing_code device_public_key
      tLoad tCheck tIssue tPair uuidHex =
      (st, [mkRejected request_id "pairing_code_invalid_or_expired"]) ∧
    (on_pairing_request st key expires_days request_id pairing_code device_public_key
      tLoad tCheck tIssue tPair uuidHex).1.session = some s := by
  have hload : load_pairing_session st tLoad = (some s, st) := by
    simp [load_pairing_session, hsess, hv1]
  have heq : on_pairing_request st key expires_days request_id pairing_code
      device_public_key tLoad tCheck tIssue tPair uuidHex =
      (st, [mkRejected request_id "pairing_code_invalid_or_expired"]) := by
    simp only [on_pairing_request, if_neg hrid, if_neg hcode, if_neg hdpk, hload,
      if_pos (Or.inr hne)]
  exact ⟨heq, by rw [heq]; exact hsess⟩

/-- Claim C7, counterexample: a wrong-code request against a valid
session (`code="135246"`, wrong code `"000000"`) is rejected with
`pairing_code_invalid_or_expired`, but the session file still holds the
session afterwards — the claim's assertion that the session is cleared
and no longer exists is false on the code. -/
theorem pairing_wrong_code_session_not_cleared :
    on_pairing_request ⟨some ⟨"135246", 0, 300⟩, []⟩ ⟨0⟩ 30 "r1" "000000" "kpub"
      10 10 10 10 [] =
      (⟨some ⟨"135246", 0, 300⟩, []⟩, [mkRejected "r1" "pairing_code_invalid_or_expired"]) ∧
    (on_pairing_request ⟨some ⟨"135246", 0, 300⟩, []⟩ ⟨0⟩ 30 "r1" "000000" "kpub"
      10 10 10 10 []).1.session = some ⟨"135246", 0, 300⟩ := by
  decide

/-- Claim C7, witness: the amended wrong-code theorem at a concrete
valid session and wrong code. -/
theorem pairing_wrong_code_keeps_session_witness :
    on_pairing_request ⟨some ⟨"135246", 0, 300⟩, []⟩ ⟨0⟩ 30 "r2" "999999" "kpub"
      10 10 10 10 [] =
      (⟨some ⟨"135246", 0, 300⟩, []⟩, [mkRejected "r2" "pairing_code_invalid_or_expired"]) ∧
    (on_pairing_request ⟨some ⟨"135246", 0, 300⟩, []⟩ ⟨0⟩ 30 "r2" "999999" "kpub"
      10 10 10 10 []).1.session = some ⟨"135246", 0, 300⟩ :=
  pairing_wrong_code_keeps_session ⟨some ⟨"135246", 0, 300⟩, []⟩ ⟨"135246", 0, 300⟩
    ⟨0⟩ 30 "r2" "999999" "kpub" 10 10 10 10 []
    (by decide) (by decide) (by decide) rfl (by decide) (by decide)

/-- Claim C6: the reply described by the claim is never enqueued — for
every inbound message and driver outcome, `_make_reply` passes
`sender_id=None` for the required `str` field `sender_id` of
`UnifiedMessage`, so pydantic validation raises and `_process` aborts
before `enqueue_outbound`. -/
theorem agent_reply_never_constructed (inbound : UnifiedMessage)
    (driverReply : Option String) (freshId : String) (now : Nat) :
    agent_process inbound driverReply freshId now = none := rfl

/-- Claim C8: a `channel.event` notification received from a plugin
produces only a log entry — it is not forwarded to any event sink, and
no `send_event_to_channel` operation exists on `PluginManager`. -/
theorem channel_event_only_logged (hasOnMessage : Bool) (registerName : String)
    (params : JObj) (reqId : Option JVal) :
    pm_dispatch hasOnMessage registerName "channel.event" params reqId =
      [PMEffect.logged] := rfl

/-- Claim C9: after two failed connection attempts, a successful
connection (auth completed, `gateway_connected` emitted) that later
drops is followed by a 4-second sleep — the value carried over and
doubled from the earlier failures — not by the 1-second base the claim
requires after a reset. -/
theorem backoff_not_reset_after_success :
    run_gateway_loop_sleeps [GatewayAttempt.connectFailed, GatewayAttempt.connectFailed,
      GatewayAttempt.connectedThenDropped] = [1, 2, 4] ∧
    (run_gateway_loop_sleeps [GatewayAttempt.connectFailed, GatewayAttempt.connectFailed,
      GatewayAttempt.connectedThenDropped]).getLast? = some 4 := by
  decide

end PHBSpec

